import Mathlib

/-!
Verification development for the selenidejs wait/condition core
(src/lib/wait.ts and the condition library file).

The TypeScript code is shallowly embedded:
  * an async function that can resolve or reject becomes a function into
    `Except Err`;
  * a described function (a function whose `toString()` was overridden by
    `Utils.lambda`) becomes a record pairing a description string with the
    callable;
  * `Wait.query`'s retry loop is run against an *attempt trace*: the i-th
    invocation of `fn(entity)` either resolves with a value or rejects with
    an error observed at some wall-clock instant (the value of
    `new Date().getTime()` read inside the `catch` block).  Times are `Int`
    (JS epoch milliseconds; timeouts may be negative).  The loop gets fuel
    so that it is total; `diverge` marks a run whose trace did not settle
    within the fuel, i.e. the real loop would still be spinning.
-/

/-- The error taxonomy of the library (src/lib/errors).  `conditionNotMatched`
is `ConditionNotMatchedError`, `timeoutError` is `TimeoutError` carrying its
formatted message, `other` is any other JS error carrying its message. -/
inductive Err where
  | conditionNotMatched
  | timeoutError (message : String)
  | other (message : String)
deriving DecidableEq, Repr

/-- The `message` property of an error.  The message text of
`ConditionNotMatchedError` lives in a file that is not part of the embedded
sources; it is modelled as a fixed constant, and no theorem below depends on
its exact value. -/
def Err.message : Err → String
  | .conditionNotMatched => "condition does not match"
  | .timeoutError m => m
  | .other m => m

/-- A described async function from `E` to `A`: the callable together with
its `toString()` form (`Utils.lambda` attaches the description). -/
structure DescribedFun (E A : Type) where
  description : String
  run : E → Except Err A

/-- `Condition<T>` — a `Query<T, void>` used as pass/fail predicate
(src/lib/wait.ts:44). -/
def Condition (T : Type) := DescribedFun T Unit

/-- `Utils.lambda(description, fn)`: attach a human-readable description to a
function (overriding its string form). -/
def lambda (description : String) (run : E → Except Err A) : DescribedFun E A :=
  ⟨description, run⟩

/-- JS `a || b` on an optional string argument with default `b`: an absent or
empty (falsy) string falls back to the default. -/
def jsStringOr (a : Option String) (b : String) : String :=
  match a with
  | none => b
  | some s => if s = "" then b else s

/-- `Condition.not` (src/lib/wait.ts:47-55): a condition that returns when the
wrapped condition throws, and throws `ConditionNotMatchedError` when the
wrapped condition returns.  Description is `description || "not " + condition`. -/
def Condition.not (condition : Condition T) (description : Option String) : Condition T :=
  lambda (jsStringOr description ("not " ++ condition.description))
    (fun entity =>
      match condition.run entity with
      | .error _ => .ok ()
      | .ok _ => .error .conditionNotMatched)

/-- `Condition.asPredicate` (src/lib/wait.ts:63-64): `condition(entity).then(res => true, err => false)`. -/
def Condition.asPredicate (condition : Condition T) : T → Bool :=
  fun entity =>
    match condition.run entity with
    | .ok _ => true
    | .error _ => false

/-- The outcome of one invocation of `fn(entity)` inside the retry loop: it
either resolves with a value, or rejects with an error whose rejection is
observed by `new Date().getTime()` at instant `timeAtCheck`. -/
inductive AttemptOutcome (R : Type) where
  | ok (r : R)
  | fail (err : Err) (timeAtCheck : Int)
deriving DecidableEq, Repr

/-- The behaviour, over the whole retry, of the function handed to
`Wait.query`: its `toString()` form and, for each invocation index, the
outcome of invoking it on the entity. -/
structure QueryBehavior (T R : Type) where
  description : String
  attempts : T → Nat → AttemptOutcome R

/-- How one call of `Wait.query` settles: resolved with a value, rejected
with an error, or still looping when the fuel ran out.  `attemptsUsed`
counts the invocations of `fn` performed. -/
inductive QueryResult (R : Type) where
  | ok (r : R) (attemptsUsed : Nat)
  | err (e : Err) (attemptsUsed : Nat)
  | diverge
deriving DecidableEq, Repr

/-- `Wait<T>` (src/lib/wait.ts:67-75): the entity, its `toString()` form,
the default timeout and the failure hooks (identified by name, in
registration order).  All fields are `readonly` in the source. -/
structure Wait (T : Type) where
  entity : T
  entityStr : String
  timeout : Int
  onFailureHooks : List String

/-- The message of the `TimeoutError` thrown by `Wait.query`
(src/lib/wait.ts:93-100). -/
def timeoutMessage (timeout : Int) (entityStr fnStr lastErrMsg : String) : String :=
  "\n" ++
  "\tTimed out after " ++ toString timeout ++ "ms, while waiting for:\n" ++
  "\t" ++ entityStr ++ "." ++ fnStr ++ "\n" ++
  "Reason:\n" ++
  "\t" ++ lastErrMsg

/-- The `while (true)` body of `Wait.query` (src/lib/wait.ts:88-103), at
invocation index `i` against deadline `finishTime`, with fuel. -/
def Wait.queryLoop (w : Wait T) (fn : QueryBehavior T R) (timeout : Int)
    (finishTime : Int) : Nat → Nat → QueryResult R
  | _, 0 => .diverge
  | i, fuel + 1 =>
    match fn.attempts w.entity i with
    | .ok r => .ok r (i + 1)
    | .fail e t =>
      if t > finishTime then
        .err (.timeoutError (timeoutMessage timeout w.entityStr fn.description e.message)) (i + 1)
      else
        w.queryLoop fn timeout finishTime (i + 1) fuel

/-- `Wait.query` (src/lib/wait.ts:85-105): resolve the defaulted timeout,
compute `finishTime = now + timeout` once at `startTime` (the clock value at
the call), then run the retry loop from invocation 0. -/
def Wait.query (w : Wait T) (fn : QueryBehavior T R) (timeoutArg : Option Int)
    (startTime : Int) (fuel : Nat) : QueryResult R :=
  let timeout := timeoutArg.getD w.timeout
  w.queryLoop fn timeout (startTime + timeout) 0 fuel

/-- `Wait.command` (src/lib/wait.ts:81-83): `await this.query(fn, timeout)` —
the result value is discarded (`void`), any rejection propagates. -/
def Wait.command (w : Wait T) (fn : QueryBehavior T Unit) (timeoutArg : Option Int)
    (startTime : Int) (fuel : Nat) : QueryResult Unit :=
  w.query fn (some (timeoutArg.getD w.timeout)) startTime fuel

/-- `Wait.until` (src/lib/wait.ts:77-79):
`this.query(fn, timeout).then(res => true, err => false)` — resolution maps
to `true`, rejection to `false`; a run that never settles maps to `none`. -/
def Wait.until (w : Wait T) (fn : QueryBehavior T Unit) (timeoutArg : Option Int)
    (startTime : Int) (fuel : Nat) : Option Bool :=
  match w.query fn (some (timeoutArg.getD w.timeout)) startTime fuel with
  | .ok _ _ => some true
  | .err _ _ => some false
  | .diverge => none

/-- Hooks invoked during one call of `Wait.query`: the body of `query`
(src/lib/wait.ts:85-105) contains no reference to `this.onFailureHooks`, so
no hook is invoked on any path, including the one that throws the
`TimeoutError`. -/
def Wait.queryHooksInvoked (_w : Wait T) (_fn : QueryBehavior T R)
    (_timeoutArg : Option Int) (_startTime : Int) (_fuel : Nat) : List String :=
  []

/-! ## Helper lemmas about the retry loop -/

theorem string_append_assoc (a b c : String) : a ++ b ++ c = a ++ (b ++ c) := by
  apply String.ext
  simp [String.data_append]

/-- `sub` occurs as a substring of `s`. -/
def containsStr (s sub : String) : Prop := ∃ p q, p ++ sub ++ q = s

/-- If the loop, started at invocation `i`, resolves with `r` after `n`
invocations, then invocation `n - 1` resolved with `r` and every earlier
invocation from `i` on rejected at an instant not past the deadline. -/
theorem queryLoop_ok_spec (w : Wait T) (fn : QueryBehavior T R) (tm ft : Int) :
    ∀ (fuel i : Nat) (r : R) (n : Nat),
      w.queryLoop fn tm ft i fuel = .ok r n →
      i < n ∧ fn.attempts w.entity (n - 1) = .ok r ∧
        ∀ j, i ≤ j → j < n - 1 → ∃ e t, fn.attempts w.entity j = .fail e t ∧ t ≤ ft := by
  intro fuel
  induction fuel with
  | zero =>
    intro i r n h
    simp [Wait.queryLoop] at h
  | succ fuel ih =>
    intro i r n h
    rw [Wait.queryLoop] at h
    cases hfn : fn.attempts w.entity i with
    | ok r0 =>
      rw [hfn] at h
      obtain ⟨hr, hn⟩ := QueryResult.ok.inj h
      subst hr
      refine ⟨by omega, by simpa [← hn] using hfn, ?_⟩
      intro j hij hjn
      omega
    | fail e t =>
      rw [hfn] at h
      by_cases ht : t > ft
      · simp [ht] at h
      · simp only [ht, if_false] at h
        obtain ⟨hin, hok, hfails⟩ := ih (i + 1) r n h
        refine ⟨by omega, hok, ?_⟩
        intro j hij hjn
        rcases Nat.lt_or_ge i j with hlt | hge
        · exact hfails j (by omega) hjn
        · have : j = i := by omega
          subst this
          exact ⟨e, t, hfn, by omega⟩

/-- If the loop, started at invocation `i`, rejects after `n` invocations,
the rejection is a `TimeoutError` built from the error of invocation `n - 1`,
whose rejection was observed strictly past the deadline; every earlier
invocation from `i` on rejected at an instant not past the deadline. -/
theorem queryLoop_err_spec (w : Wait T) (fn : QueryBehavior T R) (tm ft : Int) :
    ∀ (fuel i : Nat) (e : Err) (n : Nat),
      w.queryLoop fn tm ft i fuel = .err e n →
      i < n ∧
      (∃ le lt, fn.attempts w.entity (n - 1) = .fail le lt ∧ ft < lt ∧
        e = .timeoutError (timeoutMessage tm w.entityStr fn.description le.message)) ∧
      ∀ j, i ≤ j → j < n - 1 → ∃ fe t, fn.attempts w.entity j = .fail fe t ∧ t ≤ ft := by
  intro fuel
  induction fuel with
  | zero =>
    intro i e n h
    simp [Wait.queryLoop] at h
  | succ fuel ih =>
    intro i e n h
    rw [Wait.queryLoop] at h
    cases hfn : fn.attempts w.entity i with
    | ok r0 =>
      rw [hfn] at h
      exact absurd h (by simp)
    | fail fe t =>
      rw [hfn] at h
      by_cases ht : t > ft
      · simp only [ht, if_true] at h
        obtain ⟨he, hn⟩ := QueryResult.err.inj h
        refine ⟨by omega, ⟨fe, t, by simpa [← hn] using hfn, by omega, he.symm⟩, ?_⟩
        intro j hij hjn
        omega
      · simp only [ht, if_false] at h
        obtain ⟨hin, hlast, hfails⟩ := ih (i + 1) e n h
        refine ⟨by omega, hlast, ?_⟩
        intro j hij hjn
        rcases Nat.lt_or_ge i j with hlt | hge
        · exact hfails j (by omega) hjn
        · have : j = i := by omega
          subst this
          exact ⟨fe, t, hfn, by omega⟩

/-! ## Concrete material for witnesses -/

/-- A concrete `Wait` over a unit entity whose string form is `"browser"`,
default timeout 100ms, one registered failure hook. -/
def wUnit : Wait Unit := ⟨(), "browser", 100, ["takeScreenshot"]⟩

/-- A behaviour whose first invocation already resolves with `7`. -/
def okAtOnce : QueryBehavior Unit Nat := ⟨"get 7", fun _ _ => .ok 7⟩

/-- A behaviour whose invocation `i` rejects with `"nope"` observed at
instant `100 + 50 * i`: invocation 0 rejects exactly at deadline 100,
invocation 1 rejects at 150, strictly past it. -/
def boundaryFail : QueryBehavior Unit Nat :=
  ⟨"boundary", fun _ i => .fail (.other "nope") (100 + 50 * i)⟩

/-- The same rejection trace as `boundaryFail`, at type `Condition`-shape. -/
def boundaryFailU : QueryBehavior Unit Unit :=
  ⟨"boundary", fun _ i => .fail (.other "nope") (100 + 50 * i)⟩

/-! ## Claims -/

/-- C1: for every query function `fn` and every timeout value (including
timeouts ≤ 0, since the deadline is only consulted after a failure),
`Wait.query` invokes `fn` at least once — any settled outcome counts at
least one invocation, and a first invocation that resolves is returned as
the result of exactly one invocation; whenever an invocation succeeds, its
result is returned immediately: a run resolving after `n` invocations
succeeded precisely at invocation `n - 1`, all earlier invocations having
failed. -/
theorem C1_query_at_least_once_first_success_returned
    (w : Wait T) (fn : QueryBehavior T R) (timeoutArg : Option Int)
    (startTime : Int) (fuel : Nat) (hfuel : 1 ≤ fuel) :
    (∀ r, fn.attempts w.entity 0 = .ok r →
       w.query fn timeoutArg startTime fuel = .ok r 1) ∧
    (∀ r n, w.query fn timeoutArg startTime fuel = .ok r n →
       1 ≤ n ∧ fn.attempts w.entity (n - 1) = .ok r ∧
       ∀ j, j < n - 1 → ∃ e t, fn.attempts w.entity j = .fail e t) ∧
    (∀ e n, w.query fn timeoutArg startTime fuel = .err e n → 1 ≤ n) := by
  refine ⟨?_, ?_, ?_⟩
  · intro r h0
    obtain ⟨fuel', rfl⟩ : ∃ k, fuel = k + 1 := ⟨fuel - 1, by omega⟩
    show w.queryLoop fn _ _ 0 (fuel' + 1) = .ok r 1
    rw [Wait.queryLoop, h0]
  · intro r n h
    obtain ⟨hn, hok, hfails⟩ :=
      queryLoop_ok_spec w fn (timeoutArg.getD w.timeout)
        (startTime + timeoutArg.getD w.timeout) fuel 0 r n h
    exact ⟨by omega, hok, fun j hj =>
      (hfails j (Nat.zero_le j) hj).imp fun e he => he.imp fun t ht => ht.1⟩
  · intro e n h
    obtain ⟨hn, -, -⟩ :=
      queryLoop_err_spec w fn (timeoutArg.getD w.timeout)
        (startTime + timeoutArg.getD w.timeout) fuel 0 e n h
    omega

theorem C1_witness :
    wUnit.query okAtOnce (some (-5)) 0 3 = .ok 7 1 :=
  (C1_query_at_least_once_first_success_returned wUnit okAtOnce (some (-5)) 0 3
    (by norm_num)).1 7 rfl

/-- C2: the deadline is computed once, before the first attempt, as
call-time clock value plus the timeout (`Wait.query` hands
`startTime + timeout` to the loop and never recomputes it), and the
comparison is strict: a failed attempt observed at an instant `t` with
`t ≤ deadline` (equality included) makes the loop proceed to the next
attempt, while a failed attempt observed strictly past the deadline makes
the loop stop with the Timeout failure. -/
theorem C2_deadline_once_strict_comparison
    (w : Wait T) (fn : QueryBehavior T R) (timeout startTime : Int)
    (fuel i : Nat) (e : Err) (t : Int)
    (hfail : fn.attempts w.entity i = .fail e t) :
    (w.query fn (some timeout) startTime fuel =
       w.queryLoop fn timeout (startTime + timeout) 0 fuel) ∧
    (t ≤ startTime + timeout →
       w.queryLoop fn timeout (startTime + timeout) i (fuel + 1) =
         w.queryLoop fn timeout (startTime + timeout) (i + 1) fuel) ∧
    (startTime + timeout < t →
       w.queryLoop fn timeout (startTime + timeout) i (fuel + 1) =
         .err (.timeoutError
           (timeoutMessage timeout w.entityStr fn.description e.message)) (i + 1)) := by
  refine ⟨rfl, ?_, ?_⟩
  · intro hle
    rw [Wait.queryLoop, hfail]
    dsimp only
    rw [if_neg (by omega)]
  · intro hlt
    rw [Wait.queryLoop, hfail]
    dsimp only
    rw [if_pos (by omega)]

theorem C2_witness :
    (wUnit.query boundaryFail (some 100) 0 5 =
       wUnit.queryLoop boundaryFail 100 (0 + 100) 0 5) ∧
    (wUnit.queryLoop boundaryFail 100 (0 + 100) 0 5 =
       wUnit.queryLoop boundaryFail 100 (0 + 100) 1 4) ∧
    (wUnit.queryLoop boundaryFail 100 (0 + 100) 1 4 =
       .err (.timeoutError
         (timeoutMessage 100 wUnit.entityStr boundaryFail.description
           (Err.other "nope").message)) 2) := by
  refine ⟨?_, ?_, ?_⟩
  · exact (C2_deadline_once_strict_comparison wUnit boundaryFail 100 0 4 0
      (.other "nope") 100 (by decide)).1
  · exact (C2_deadline_once_strict_comparison wUnit boundaryFail 100 0 4 0
      (.other "nope") 100 (by decide)).2.1 (by norm_num)
  · exact (C2_deadline_once_strict_comparison wUnit boundaryFail 100 0 3 1
      (.other "nope") 150 (by decide)).2.2 (by norm_num)

/-- C3: `Wait.until` never rejects — its outcome is a boolean: it resolves
`true` exactly when the underlying `query` run resolves, and `false` exactly
when the underlying `query` run rejects (the only rejection being the
timeout failure). -/
theorem C3_until_resolves_boolean
    (w : Wait T) (fn : QueryBehavior T Unit) (timeoutArg : Option Int)
    (startTime : Int) (fuel : Nat) :
    (w.until fn timeoutArg startTime fuel = some true ↔
       ∃ n, w.query fn (some (timeoutArg.getD w.timeout)) startTime fuel = .ok () n) ∧
    (w.until fn timeoutArg startTime fuel = some false ↔
       ∃ e n, w.query fn (some (timeoutArg.getD w.timeout)) startTime fuel = .err e n) := by
  unfold Wait.until
  cases h : w.query fn (some (timeoutArg.getD w.timeout)) startTime fuel with
  | ok r n =>
    cases r
    constructor <;> simp
  | err e n =>
    constructor <;> simp
  | diverge =>
    constructor <;> simp

/-- C4: the only failure kind that can escape `Wait.query` (and hence
`Wait.command`) is the timeout failure: any rejected run rejects with a
`TimeoutError`; and `command` is exactly the underlying `query` run with its
value discarded, so it propagates that failure rather than swallowing it. -/
theorem C4_only_timeout_escapes
    (w : Wait T) (fn : QueryBehavior T R) (fnc : QueryBehavior T Unit)
    (timeoutArg : Option Int) (startTime : Int) (fuel : Nat) :
    (∀ e n, w.query fn timeoutArg startTime fuel = .err e n →
       ∃ msg, e = .timeoutError msg) ∧
    (w.command fnc timeoutArg startTime fuel =
       w.query fnc timeoutArg startTime fuel) ∧
    (∀ e n, w.command fnc timeoutArg startTime fuel = .err e n →
       ∃ msg, e = .timeoutError msg) := by
  have escape : ∀ (fq : QueryBehavior T R) e n,
      w.query fq timeoutArg startTime fuel = .err e n →
      ∃ msg, e = .timeoutError msg := by
    intro fq e n h
    obtain ⟨-, ⟨le, lt, -, -, he⟩, -⟩ :=
      queryLoop_err_spec w fq (timeoutArg.getD w.timeout)
        (startTime + timeoutArg.getD w.timeout) fuel 0 e n h
    exact ⟨_, he⟩
  refine ⟨escape fn, rfl, ?_⟩
  intro e n h
  obtain ⟨-, ⟨le, lt, -, -, he⟩, -⟩ :=
    queryLoop_err_spec w fnc (timeoutArg.getD w.timeout)
      (startTime + timeoutArg.getD w.timeout) fuel 0 e n h
  exact ⟨_, he⟩

theorem C4_witness :
    ∃ msg, Err.timeoutError
      (timeoutMessage 100 wUnit.entityStr boundaryFail.description
        (Err.other "nope").message) = .timeoutError msg :=
  (C4_only_timeout_escapes wUnit boundaryFail boundaryFailU (some 100) 0 5).1
    _ 2 rfl

theorem string_append_empty (s : String) : s ++ "" = s := by
  apply String.ext
  simp [String.data_append]

/-- C5: when `Wait.query` rejects with the Timeout failure, the failure's
message contains the effective timeout value of the call, the string form of
the held entity, the description of the failing function, and the message of
the last underlying per-attempt error (the one of the final invocation). -/
theorem C5_timeout_message_contents
    (w : Wait T) (fn : QueryBehavior T R) (timeoutArg : Option Int)
    (startTime : Int) (fuel n : Nat) (msg : String)
    (h : w.query fn timeoutArg startTime fuel = .err (.timeoutError msg) n) :
    containsStr msg (toString (timeoutArg.getD w.timeout)) ∧
    containsStr msg w.entityStr ∧
    containsStr msg fn.description ∧
    ∃ le lt, fn.attempts w.entity (n - 1) = .fail le lt ∧
      containsStr msg le.message := by
  obtain ⟨-, ⟨le, lt, hlast, -, he⟩, -⟩ :=
    queryLoop_err_spec w fn (timeoutArg.getD w.timeout)
      (startTime + timeoutArg.getD w.timeout) fuel 0 _ n h
  obtain rfl := Err.timeoutError.inj he
  refine ⟨?_, ?_, ?_, le, lt, hlast, ?_⟩
  · refine ⟨"\n" ++ "\tTimed out after ",
      "ms, while waiting for:\n" ++ ("\t" ++ (w.entityStr ++ ("." ++
        (fn.description ++ ("\n" ++ ("Reason:\n" ++ ("\t" ++ le.message))))))), ?_⟩
    simp only [timeoutMessage, string_append_assoc]
  · refine ⟨"\n" ++ ("\tTimed out after " ++
      (toString (timeoutArg.getD w.timeout) ++ ("ms, while waiting for:\n" ++ "\t"))),
      "." ++ (fn.description ++ ("\n" ++ ("Reason:\n" ++ ("\t" ++ le.message)))), ?_⟩
    simp only [timeoutMessage, string_append_assoc]
  · refine ⟨"\n" ++ ("\tTimed out after " ++
      (toString (timeoutArg.getD w.timeout) ++ ("ms, while waiting for:\n" ++
        ("\t" ++ (w.entityStr ++ "."))))),
      "\n" ++ ("Reason:\n" ++ ("\t" ++ le.message)), ?_⟩
    simp only [timeoutMessage, string_append_assoc]
  · refine ⟨"\n" ++ ("\tTimed out after " ++
      (toString (timeoutArg.getD w.timeout) ++ ("ms, while waiting for:\n" ++
        ("\t" ++ (w.entityStr ++ ("." ++ (fn.description ++ ("\n" ++
          ("Reason:\n" ++ "\t"))))))))), "", ?_⟩
    simp only [timeoutMessage, string_append_assoc, string_append_empty]

theorem C5_witness :
    containsStr
      (timeoutMessage 100 wUnit.entityStr boundaryFail.description
        (Err.other "nope").message)
      (toString ((some (100 : Int)).getD wUnit.timeout)) ∧
    containsStr
      (timeoutMessage 100 wUnit.entityStr boundaryFail.description
        (Err.other "nope").message) wUnit.entityStr ∧
    containsStr
      (timeoutMessage 100 wUnit.entityStr boundaryFail.description
        (Err.other "nope").message) boundaryFail.description ∧
    ∃ le lt, boundaryFail.attempts wUnit.entity (2 - 1) = .fail le lt ∧
      containsStr
        (timeoutMessage 100 wUnit.entityStr boundaryFail.description
          (Err.other "nope").message) le.message :=
  C5_timeout_message_contents wUnit boundaryFail (some 100) 0 5 2
    (timeoutMessage 100 wUnit.entityStr boundaryFail.description
      (Err.other "nope").message) rfl

/-- C6 counterexample: a concrete `Wait` with one registered failure hook,
on a run of `query` that produces the Timeout failure, invokes no hook at
all — the set of hooks invoked before the failure propagates is empty, not
the registered sequence. -/
theorem C6_counterexample_hook_not_invoked :
    wUnit.query boundaryFailU (some 100) 0 5 =
      .err (.timeoutError
        (timeoutMessage 100 wUnit.entityStr boundaryFailU.description
          (Err.other "nope").message)) 2 ∧
    wUnit.queryHooksInvoked boundaryFailU (some 100) 0 5 ≠ wUnit.onFailureHooks := by
  exact ⟨rfl, by decide⟩

/-- C6 (amended): failure hooks registered at `Wait` construction are stored
(in registration order) but never invoked: on the path where `Wait.query`
produces the Timeout failure, no hook runs before the failure propagates to
the caller. -/
theorem C6_amended_hooks_never_invoked
    (w : Wait T) (fn : QueryBehavior T R) (timeoutArg : Option Int)
    (startTime : Int) (fuel n : Nat) (e : Err)
    (h : w.query fn timeoutArg startTime fuel = .err e n) :
    w.queryHooksInvoked fn timeoutArg startTime fuel = [] ∧
    ∃ msg, e = .timeoutError msg := by
  obtain ⟨-, ⟨le, lt, -, -, he⟩, -⟩ :=
    queryLoop_err_spec w fn (timeoutArg.getD w.timeout)
      (startTime + timeoutArg.getD w.timeout) fuel 0 e n h
  exact ⟨rfl, _, he⟩

theorem C6_witness :
    wUnit.queryHooksInvoked boundaryFailU (some 100) 0 5 = [] ∧
    ∃ msg, Err.timeoutError
      (timeoutMessage 100 wUnit.entityStr boundaryFailU.description
        (Err.other "nope").message) = .timeoutError msg :=
  C6_amended_hooks_never_invoked wUnit boundaryFailU (some 100) 0 5 2 _ rfl

/-- C7: `Condition.not c` succeeds on an entity exactly when `c` fails on
it, fails exactly when `c` succeeds, its only failure is
`ConditionNotMatchedError`, and with no description argument its description
is `"not "` followed by the string form of `c`. -/
theorem C7_not_inverts (c : Condition T) (e : T) :
    ((Condition.not c none).run e = .ok () ↔ ∃ err, c.run e = .error err) ∧
    ((Condition.not c none).run e = .error .conditionNotMatched ↔
       c.run e = .ok ()) ∧
    (∀ err, (Condition.not c none).run e = .error err →
       err = .conditionNotMatched) ∧
    (Condition.not c none).description = "not " ++ c.description := by
  refine ⟨?_, ?_, ?_, rfl⟩ <;>
    cases hc : c.run e <;>
      simp [Condition.not, lambda, hc]

/-- C8: double negation is behaviorally the identity — for every condition
`c` and entity `e`, `Condition.not (Condition.not c)` succeeds on `e`
exactly when `c` succeeds on `e`, and fails exactly when `c` fails. -/
theorem C8_double_negation (c : Condition T) (e : T) :
    ((Condition.not (Condition.not c none) none).run e = .ok () ↔
       c.run e = .ok ()) ∧
    ((∃ err, (Condition.not (Condition.not c none) none).run e = .error err) ↔
       ∃ err, c.run e = .error err) := by
  cases hc : c.run e <;>
    simp [Condition.not, lambda, hc]

/-- One method call on a `Wait` instance, with all its arguments (the
per-call timeout override included). -/
inductive WaitCall (T R : Type) where
  | untilCall (fn : QueryBehavior T Unit) (timeoutArg : Option Int)
      (startTime : Int) (fuel : Nat)
  | commandCall (fn : QueryBehavior T Unit) (timeoutArg : Option Int)
      (startTime : Int) (fuel : Nat)
  | queryCall (fn : QueryBehavior T R) (timeoutArg : Option Int)
      (startTime : Int) (fuel : Nat)

/-- The state of a `Wait` after one method call: `until`, `command` and
`query` (src/lib/wait.ts:77-105) only read the `readonly` fields `entity`,
`timeout` and `onFailureHooks` — no statement in their bodies assigns to
them, so the state after the call is the state before it. -/
def Wait.afterCall (w : Wait T) (c : WaitCall T R) : Wait T :=
  match c with
  | .untilCall fn t s f => let _ := w.until fn t s f; w
  | .commandCall fn t s f => let _ := w.command fn t s f; w
  | .queryCall fn t s f => let _ := w.query fn t s f; w

/-- C9: no sequence of `until`, `command` or `query` calls (with or without
a per-call timeout override) changes the stored entity, the stored default
timeout, or the stored hook sequence of a `Wait` instance. -/
theorem C9_wait_immutable (w : Wait T) (calls : List (WaitCall T R)) :
    (calls.foldl Wait.afterCall w).entity = w.entity ∧
    (calls.foldl Wait.afterCall w).timeout = w.timeout ∧
    (calls.foldl Wait.afterCall w).onFailureHooks = w.onFailureHooks := by
  have hfold : ∀ (cs : List (WaitCall T R)) (w0 : Wait T),
      cs.foldl Wait.afterCall w0 = w0 := by
    intro cs
    induction cs with
    | nil => intro w0; rfl
    | cons c cs ih =>
      intro w0
      rw [List.foldl_cons]
      have hc : w0.afterCall c = w0 := by cases c <;> rfl
      rw [hc, ih]
  simp [hfold calls w]

/-- `throwIfNotActual` (condition library, src/unnamed/part_000:57-64): run
the value query on the entity (a rejection of the query propagates), apply
the synchronous predicate to the actual value, and on a `false` result throw
a generic error embedding the query's string form and the actual value;
`toStr` stands for the JS string conversion of the actual value. -/
def throwIfNotActual (toStr : A → String) (q : DescribedFun E A)
    (p : A → Bool) : E → Except Err Unit :=
  fun entity =>
    match q.run entity with
    | .error err => .error err
    | .ok actual =>
      if p actual then .ok ()
      else .error (.other ("actual " ++ q.description ++ ": " ++ toStr actual))

/-- JS string conversion of an array of strings: `join(",")`. -/
def jsArrayToString (l : List String) : String := String.intercalate "," l

/-- Modelled from the spec: the collection entity (`src/lib/collection` is
not under src/).  For the condition library only its texts reading matters:
the outcome of the `texts` query on it. -/
structure Collection where
  textsResult : Except Err (List String)

/-- Modelled from the spec: `query.collection.texts` (`src/lib/queries` is
not under src/) — the async query reading the texts of the collection's
elements, with its string form. -/
def queryCollectionTexts : DescribedFun Collection (List String) :=
  ⟨"texts of collection", fun c => c.textsResult⟩

/-- `needle` occurs as a contiguous sublist of `haystack` (the boolean form
of JS `String.prototype.includes` on character lists). -/
def isSubListOf (needle : List Char) : List Char → Bool
  | [] => needle.isEmpty
  | c :: rest => needle.isPrefixOf (c :: rest) || isSubListOf needle rest

/-- Modelled from the spec: `predicate.equalsByContainsToArray`
(`src/lib/helpers/predicates` is not under src/) — array-equal-by-contains:
the actual array has the expected array's length and each actual element
contains the corresponding expected element as a substring. -/
def equalsByContainsToArray (expected : List String) (actual : List String) : Bool :=
  actual.length == expected.length &&
    (actual.zip expected).all fun pair => isSubListOf pair.2.data pair.1.data

/-- `condition.collection.hasTexts` (src/unnamed/part_000:143-145). -/
def hasTexts (texts : List String) : Condition Collection :=
  lambda ("has texts " ++ jsArrayToString texts)
    (throwIfNotActual jsArrayToString queryCollectionTexts
      (equalsByContainsToArray texts))

/-- `condition.collection.hasExactTexts` (src/unnamed/part_000:147-149). -/
def hasExactTexts (texts : List String) : Condition Collection :=
  lambda ("has exact texts " ++ jsArrayToString texts)
    (throwIfNotActual jsArrayToString queryCollectionTexts
      (equalsByContainsToArray texts))

/-- C10: for every expected-texts list and every collection entity,
`hasTexts` and `hasExactTexts` behave identically — both apply the same
equals-by-contains array predicate to the same texts query — and they
differ only in their attached description strings, which are distinct. -/
theorem C10_hasTexts_hasExactTexts_same_behavior
    (texts : List String) (c : Collection) :
    (hasTexts texts).run c = (hasExactTexts texts).run c ∧
    (hasTexts texts).description = "has texts " ++ jsArrayToString texts ∧
    (hasExactTexts texts).description =
      "has exact texts " ++ jsArrayToString texts ∧
    (hasTexts texts).description ≠ (hasExactTexts texts).description := by
  refine ⟨rfl, rfl, rfl, ?_⟩
  intro h
  have h2 := congrArg String.data h
  simp only [hasTexts, hasExactTexts, lambda, String.data_append] at h2
  have hlen := congrArg List.length h2
  simp [List.length_append] at hlen
